import Mathlib

/-!
Verification of the car-navigation trip-planning dashboard (`app.py`).

Shallow embedding conventions:
* Python strings are modelled as `String` (or `List Char` where character-level
  reasoning about stripping is needed).
* Python floats coming from the external services (durations, distances,
  coordinates) are modelled as rationals `ℚ`; the claims under study only
  concern their arithmetic/comparison structure, not rounding.
* The three external HTTP services (geocoder, router, Overpass POI query) are
  modelled as explicit oracles passed to the functions that call them.
* `st.session_state` is modelled as an explicit `SessionState` record threaded
  through an event-step function.
-/

namespace CarNav

/-- Decimal digit characters of a natural number, fuel-indexed so the
definition is structural (and hence reduces in the kernel).  This models the
rendering of an integer inside a Python f-string such as `f"{int(hours)}h "`. -/
def natDigitsAux : Nat → Nat → List Char
  | 0, _ => []
  | fuel + 1, n =>
    if n < 10 then [Nat.digitChar n]
    else natDigitsAux fuel (n / 10) ++ [Nat.digitChar (n % 10)]

/-- Decimal rendering of a natural number as a list of digit characters. -/
def natDigits (n : Nat) : List Char :=
  natDigitsAux (n + 1) n

/-- Python `str.lstrip()` on the default whitespace set. -/
def lstripChars (xs : List Char) : List Char :=
  xs.dropWhile Char.isWhitespace

/-- Python `str.rstrip()` on the default whitespace set. -/
def rstripChars (xs : List Char) : List Char :=
  (xs.reverse.dropWhile Char.isWhitespace).reverse

/-- Python `str.strip()` on the default whitespace set. -/
def stripChars (xs : List Char) : List Char :=
  rstripChars (lstripChars xs)

/-- Embedding of `format_duration` (app.py lines 100-109).  The input is
`Option Nat`: `none` models a `None` argument (`route.get('duration')` can be
absent) and the claims under study quantify over non-negative integer second
counts.  `if not seconds` is truthiness: both `None` and `0` take that branch. -/
def format_duration (seconds? : Option Nat) : List Char :=
  match seconds? with
  | none => ['0', 's']
  | some n =>
    if n = 0 then ['0', 's']
    else
      -- minutes, seconds = divmod(seconds, 60); hours, minutes = divmod(minutes, 60)
      let s := n % 60
      let m := (n / 60) % 60
      let h := (n / 60) / 60
      let d1 : List Char := if h > 0 then natDigits h ++ ['h', ' '] else []
      let d2 : List Char := d1 ++ (if m > 0 then natDigits m ++ ['m', ' '] else [])
      let d3 : List Char := d2 ++ (if s > 0 ∨ d2 = [] then natDigits s ++ ['s'] else [])
      stripChars d3

/-- Formulated from the specification's words (§4.4 "Duration formatting"):
produce `"<H>h <M>m <S>s"`, omitting a unit if it is zero, except that zero or
absent total duration formats as exactly `"0s"`, including hours only if ≥ 1h,
minutes only if ≥ 1m, seconds if > 0 or if no larger unit was included; the
emitted unit fragments are joined by single spaces. -/
def format_duration_spec (seconds? : Option Nat) : List Char :=
  match seconds? with
  | none => ['0', 's']
  | some n =>
    if n = 0 then ['0', 's']
    else
      let s := n % 60
      let m := (n / 60) % 60
      let h := (n / 60) / 60
      let parts : List (List Char) :=
        (if h > 0 then [natDigits h ++ ['h']] else []) ++
        (if m > 0 then [natDigits m ++ ['m']] else []) ++
        (if s > 0 ∨ (h = 0 ∧ m = 0) then [natDigits s ++ ['s']] else [])
      List.intercalate [' '] parts

/-- A decoded path point `(lat, lon)` as produced by `polyline.decode`. -/
abbrev Point : Type := ℚ × ℚ

/-- Helper for `pySlice`: `c` counts down the distance to the next kept
element (`c = 0` keeps the current element and resets the counter). -/
def sliceAux (step : Nat) : Nat → List Point → List Point
  | _, [] => []
  | 0, x :: xs => x :: sliceAux step (step - 1) xs
  | c + 1, _ :: xs => sliceAux step c xs

/-- Python extended slicing `xs[::step]` for a positive `step`: the elements
at indices `0, step, 2*step, ...` in order. -/
def pySlice (xs : List Point) (step : Nat) : List Point :=
  sliceAux step 0 xs

/-- app.py line 65. -/
def MAX_QUERY_POINTS : Nat := 50

/-- The downsampling performed by `get_fuel_stations_along_route`
(app.py lines 66-68): `if len(points) > MAX_QUERY_POINTS:
step = len(points) // MAX_QUERY_POINTS; points = points[::step]`. -/
def downsamplePoints (points : List Point) : List Point :=
  if points.length > MAX_QUERY_POINTS then
    pySlice points (points.length / MAX_QUERY_POINTS)
  else points

/-- A concrete 120-point decoded path, used to exhibit the downsampling
behaviour on the spec's own example size. -/
def pts120 : List Point :=
  (List.range 120).map (fun i => ((i : ℚ), 0))

/-- A `(lon, lat)` coordinate pair as sent to the routing service. -/
abbrev Coord : Type := ℚ × ℚ

/-- One turn-by-turn step of a leg (OSRM `legs[].steps[]`).  Fields that the
code reads with `.get(..., default)` are `Option`s. -/
structure RouteStep where
  maneuver_type : Option String
  maneuver_modifier : Option String
  maneuver_instruction : Option String
  name : Option String
  distance : ℚ
  duration : Nat
deriving DecidableEq

/-- One leg of a route (the portion between two consecutive waypoints). -/
structure Leg where
  steps : List RouteStep
deriving DecidableEq

/-- One candidate route returned by the routing service. -/
structure Route where
  geometry : String
  distance : Option ℚ
  duration : Option ℚ
  legs : List Leg
deriving DecidableEq

/-- The sort key `r.get('duration', float('inf'))` (app.py line 300): a
missing duration sorts as +∞. -/
def durationKey (r : Route) : WithTop ℚ :=
  match r.duration with
  | some d => (d : WithTop ℚ)
  | none => ⊤

/-- Comparison used by `routes.sort(key=...)`. -/
def routeLE (a b : Route) : Prop := durationKey a ≤ durationKey b

instance : DecidableRel routeLE :=
  fun a b => inferInstanceAs (Decidable (durationKey a ≤ durationKey b))

instance : IsTotal Route routeLE := ⟨fun a b => le_total (durationKey a) (durationKey b)⟩

instance : IsTrans Route routeLE := ⟨fun _ _ _ hab hbc => le_trans hab hbc⟩

/-- `routes.sort(key=lambda r: r.get('duration', float('inf')))` (app.py line
300).  Python's `list.sort` is a stable ascending sort by the key; stable
sorting is implementation-independent, embedded here as insertion sort. -/
def sortRoutes (rs : List Route) : List Route := List.insertionSort routeLE rs

/-- The slice of `st.session_state` relevant to routing (app.py lines 11-20,
281, 301-305).  `all_coords`/`all_places` have no initializer in the source
(they are only read once a successful submit has stored them); they are given
`[]` as a neutral initial value here. -/
structure SessionState where
  routes : List Route
  selected_route_index : Nat
  destinations : List String
  all_coords : List Coord
  all_places : List String
deriving DecidableEq

/-- Initial session state (app.py lines 11-20). -/
def initState : SessionState :=
  { routes := [], selected_route_index := 0, destinations := [],
    all_coords := [], all_places := [] }

/-- Storing the routing client's response (app.py lines 298-306): a non-empty
route list is sorted by duration and stored with the selected index reset to 0
and the coordinates remembered; `None` or an empty list clears the stored
routes (and touches nothing else — in particular the selected index). -/
def applyRouteResponse (resp : Option (List Route)) (coords : List Coord)
    (st : SessionState) : SessionState :=
  let routes := resp.getD []
  if routes.isEmpty then
    { st with routes := [] }
  else
    { st with
      routes := sortRoutes routes
      selected_route_index := 0
      all_coords := coords }

/-- The geocoding loop of the submit handler (app.py lines 282-291): geocode
each place in order, collecting `(lon, lat)` pairs; the first failure cancels
the whole list (`valid_trip = False` followed by `all_coords = []`). -/
def geocodeAll (geocode : String → Option (ℚ × ℚ)) :
    List String → Option (List Coord)
  | [] => some []
  | p :: ps =>
    match geocode p with
    | some (lat, lon) => (geocodeAll geocode ps).map (fun rest => (lon, lat) :: rest)
    | none => none

/-- User actions that mutate the session state.  The geocoding and routing
HTTP services are carried as oracles inside the submit events. -/
inductive Event where
  | submitPlaces (geocode : String → Option (ℚ × ℚ))
      (routeService : List Coord → Option (List Route))
      (start_place end_place : String)
  | submitCoords (routeService : List Coord → Option (List Route))
      (s e : Coord)
  | selectRoute (i : Nat)
  | addDestination (name : String)
  | removeDestination (i : Nat)

/-- One user interaction (app.py `main`).  The returned `Bool` records
whether a routing request was issued during the action.
* `submitPlaces`: lines 279-291 geocode `[start] + destinations + [end]`
  (storing `all_places` first, line 281); only if at least two coordinates
  were produced is the routing client called (lines 296-306).
* `submitCoords`: coordinate mode (lines 250-252, 292-294) clears the
  destinations, uses generic place names, and always routes on the two
  coordinates.
* `selectRoute`: the route radio selector (lines 316-318) exists only when
  more than one route is stored and only offers indices below the length.
* `addDestination`/`removeDestination`: the waypoint list UI
  (lines 212-246). -/
def step (e : Event) (st : SessionState) : SessionState × Bool :=
  match e with
  | .submitPlaces geocode routeService sp ep =>
    let places := [sp] ++ st.destinations ++ [ep]
    let st1 := { st with all_places := places }
    let coords := (geocodeAll geocode places).getD []
    if 2 ≤ coords.length then
      (applyRouteResponse (routeService coords) coords st1, true)
    else
      (st1, false)
  | .submitCoords routeService s e =>
    let coords := [s, e]
    let st1 := { st with destinations := [], all_places := ["Start", "End"] }
    (applyRouteResponse (routeService coords) coords st1, true)
  | .selectRoute i =>
    if 1 < st.routes.length ∧ i < st.routes.length then
      ({ st with selected_route_index := i }, false)
    else (st, false)
  | .addDestination name =>
    if name.isEmpty then (st, false)
    else ({ st with destinations := st.destinations ++ [name] }, false)
  | .removeDestination i =>
    ({ st with destinations := st.destinations.eraseIdx i }, false)

/-- The session states reachable from the initial state through user
interactions. -/
inductive Reachable : SessionState → Prop where
  | init : Reachable initState
  | next (st : SessionState) (e : Event) : Reachable st → Reachable (step e st).1

/-- A concrete route with duration 300 s. -/
def routeA : Route :=
  { geometry := "gA", distance := some 9000, duration := some 300, legs := [] }

/-- A concrete route with duration 100 s. -/
def routeB : Route :=
  { geometry := "gB", distance := some 4000, duration := some 100, legs := [] }

/-- A routing oracle that always returns two routes (slower one first). -/
def svcTwo : List Coord → Option (List Route) := fun _ => some [routeA, routeB]

/-- A routing oracle that always fails. -/
def svcFail : List Coord → Option (List Route) := fun _ => none

/-- Trace: a successful coordinate-mode submit storing two routes. -/
def stTrace1 : SessionState :=
  (step (Event.submitCoords svcTwo (0, 0) (1, 1)) initState).1

/-- Trace: the user then selects the second route. -/
def stTrace2 : SessionState := (step (Event.selectRoute 1) stTrace1).1

/-- Trace: a failing submit then replaces the stored set with the empty set. -/
def stTrace3 : SessionState :=
  (step (Event.submitCoords svcFail (0, 0) (1, 1)) stTrace2).1

/-- A geocoder that fails exactly on the place name "B". -/
def geoFailB : String → Option (ℚ × ℚ) :=
  fun p => if p = "B" then none else some (1, 2)

/-- A prior session state holding one stored route and the waypoint "B". -/
def stPrior : SessionState :=
  { routes := [routeA], selected_route_index := 0, destinations := ["B"],
    all_coords := [(5, 5)], all_places := ["A", "B", "C"] }

/-- Python `str.replace('_', ' ')` (the replaced pattern is a single
character, so this is a character map). -/
def replaceUnderscores (s : String) : String :=
  String.mk (s.data.map (fun c => if c = '_' then ' ' else c))

/-- Python `str.title()` restricted to ASCII letters (the only characters the
routing service emits in maneuver types/modifiers): a letter is uppercased
when the previous character is not a letter, lowercased otherwise. -/
def pyTitleAux : Bool → List Char → List Char
  | _, [] => []
  | prevAlpha, c :: cs =>
    (if c.isAlpha then (if prevAlpha then c.toLower else c.toUpper) else c) ::
      pyTitleAux c.isAlpha cs

/-- Python `str.title()` (ASCII). -/
def pyTitle (s : String) : String := String.mk (pyTitleAux false s.data)

/-- `maneuver.get('type', 'unknown').replace('_', ' ').title()`
(app.py line 161). -/
def maneuverTypeOf (s : RouteStep) : String :=
  pyTitle (replaceUnderscores (s.maneuver_type.getD "unknown"))

/-- `maneuver.get('modifier', '').replace('_', ' ').title()`
(app.py line 162). -/
def maneuverModifierOf (s : RouteStep) : String :=
  pyTitle (replaceUnderscores (s.maneuver_modifier.getD ""))

/-- The per-step instruction derivation of `create_route_details_df`
(app.py lines 160-178); the Python locals `maneuver_type`, `modifier` and
`road_name` are inlined. -/
def stepInstruction (numLegs legIdx : Nat) (s : RouteStep) : String :=
  if maneuverTypeOf s = "Depart" then
    (if s.name.getD "" ≠ "" then "Depart on " ++ s.name.getD "" else "Depart")
  else if maneuverTypeOf s = "New Name" then
    "Continue onto " ++ s.name.getD ""
  else if maneuverTypeOf s = "Arrive" ∧ legIdx < numLegs - 1 then
    "You have arrived at Waypoint " ++ toString (legIdx + 1) ++ "."
  else if maneuverTypeOf s = "Arrive" then
    s.maneuver_instruction.getD "You have arrived at your final destination."
  else
    String.intercalate " "
      (([maneuverTypeOf s, maneuverModifierOf s] ++
          (if s.name.getD "" ≠ "" then ["onto " ++ s.name.getD ""] else [])).filter
        (fun part => !part.isEmpty))

/-- One row of the route-details table. -/
structure DetailRow where
  stepNo : Nat
  instruction : String
  distance_km : ℚ
  time : List Char
deriving DecidableEq

/-- The rows produced for the steps of one leg, starting at running step
number `counter` (app.py lines 159-186). -/
def legRows (numLegs legIdx : Nat) : Nat → List RouteStep → List DetailRow
  | _, [] => []
  | counter, s :: rest =>
    { stepNo := counter
      instruction := stepInstruction numLegs legIdx s
      distance_km := s.distance / 1000
      time := format_duration (some s.duration) } ::
      legRows numLegs legIdx (counter + 1) rest

/-- The outer leg loop of `create_route_details_df` (app.py line 158),
threading the running step counter across legs. -/
def routeRowsAux (numLegs : Nat) : Nat → Nat → List Leg → List DetailRow
  | _, _, [] => []
  | counter, legIdx, leg :: rest =>
    legRows numLegs legIdx counter leg.steps ++
      routeRowsAux numLegs (counter + leg.steps.length) (legIdx + 1) rest

/-- `create_route_details_df` (app.py lines 154-188); the DataFrame is the
list of its rows, `total_steps` starts at 1. -/
def create_route_details_df (r : Route) : List DetailRow :=
  routeRowsAux r.legs.length 1 0 r.legs

/-- A step with the given maneuver type/modifier/instruction and road name. -/
def mkStep (t mo instr nm : Option String) : RouteStep :=
  { maneuver_type := t
    maneuver_modifier := mo
    maneuver_instruction := instr
    name := nm
    distance := 1000
    duration := 60 }

/-- A depart step on "Main St". -/
def departMain : RouteStep := mkStep (some "depart") none none (some "Main St")

/-- A 2-leg route with 3 and 2 steps (the spec's step-numbering example). -/
def exRoute : Route :=
  { geometry := "g"
    distance := some 5000
    duration := some 600
    legs :=
      [⟨[departMain,
         mkStep (some "turn") (some "left") none (some "A St"),
         mkStep (some "arrive") none none none]⟩,
       ⟨[mkStep (some "depart") none none none,
         mkStep (some "arrive") none none none]⟩] }

/-- An Overpass element (fuel-station POI): nodes carry `lat`/`lon`, ways and
relations carry `center.lat`/`center.lon` (via `out center`), and the name
lives in `tags.name`; every field can be absent. -/
structure Station where
  lat : Option ℚ
  lon : Option ℚ
  center_lat : Option ℚ
  center_lon : Option ℚ
  tags_name : Option String
deriving DecidableEq

/-- Outcome of the single Overpass POST request. -/
inductive HttpResult where
  | success (elements : List Station)
  | httpError (status : Nat) (reason : String) (body : String)
  | networkError (msg : String)
deriving DecidableEq

/-- The user-visible notices `get_fuel_stations_along_route` can emit
(`st.warning`, `st.info`, `st.error`, `st.code`). -/
inductive Notice where
  | warnEmptyGeometry
  | infoFound (count : Nat) (radius_meters : ℚ)
  | warnBusyRetryLater
  | errorHttp (status : Nat) (reason : String)
  | codeBody (body : String)
  | warnNetwork (msg : String)
deriving DecidableEq

/-- `get_fuel_stations_along_route` (app.py lines 57-97).  `decodedPoints`
stands for `polyline.decode(route_geometry)` and `response` for the outcome
of the Overpass POST; the Overpass query string itself (built from the
downsampled points and the radius) does not influence the return value and is
not modelled.  Returns the station list together with the notices shown. -/
def get_fuel_stations_along_route (decodedPoints : List Point)
    (radius_meters : ℚ) (response : HttpResult) : List Station × List Notice :=
  if decodedPoints.isEmpty then
    ([], [Notice.warnEmptyGeometry])
  else
    let _queryPoints := downsamplePoints decodedPoints
    match response with
    | .success elements =>
      (elements, [Notice.infoFound elements.length radius_meters])
    | .httpError status reason body =>
      if status = 504 then ([], [Notice.warnBusyRetryLater])
      else ([], [Notice.errorHttp status reason, Notice.codeBody body])
    | .networkError msg => ([], [Notice.warnNetwork msg])

/-- `selected_route.get('distance', 0) / 1000` (app.py line 323). -/
def distance_km (r : Route) : ℚ := r.distance.getD 0 / 1000

/-- `distance_km / fuel_efficiency if fuel_efficiency > 0 else 0`
(app.py line 326). -/
def fuel_needed (dkm fuel_efficiency : ℚ) : ℚ :=
  if fuel_efficiency > 0 then dkm / fuel_efficiency else 0

/-- `estimated_cost = fuel_needed * fuel_price` (app.py line 327). -/
def estimated_cost (dkm fuel_efficiency fuel_price : ℚ) : ℚ :=
  fuel_needed dkm fuel_efficiency * fuel_price

/-- Python `a or b` on optional floats: `None` and `0.0` are falsy, so `b` is
used when `a` is absent or zero (app.py lines 142-143). -/
def pyOrOpt (a b : Option ℚ) : Option ℚ :=
  match a with
  | some x => if x = 0 then b else some x
  | none => b

/-- Python truthiness of an optional float (`if lat and lon:` on line 144):
present and nonzero. -/
def truthyOpt (a : Option ℚ) : Bool :=
  match a with
  | some x => decide (x ≠ 0)
  | none => false

/-- `station.get('lat') or station.get('center', {}).get('lat')` (line 142). -/
def resolvedLat (s : Station) : Option ℚ := pyOrOpt s.lat s.center_lat

/-- `station.get('lon') or station.get('center', {}).get('lon')` (line 143). -/
def resolvedLon (s : Station) : Option ℚ := pyOrOpt s.lon s.center_lon

/-- A fuel-station marker placed on the map (location and popup label). -/
structure FuelMarker where
  lat : ℚ
  lon : ℚ
  popup : String
deriving DecidableEq

/-- The marker (if any) drawn for one station (app.py lines 142-146). -/
def stationMarker (station : Station) : Option FuelMarker :=
  if truthyOpt (resolvedLat station) && truthyOpt (resolvedLon station) then
    some { lat := (resolvedLat station).getD 0
           lon := (resolvedLon station).getD 0
           popup := station.tags_name.getD "Fuel Station" }
  else none

/-- The fuel-station marker loop of `create_map` (app.py lines 140-146). -/
def fuelMarkers (stations : List Station) : List FuelMarker :=
  stations.filterMap stationMarker

/-- The condition under which the claim says a marker is drawn: the resolved
latitude and longitude are both present and nonzero. -/
def drawCond (s : Station) : Prop :=
  (resolvedLat s ≠ none ∧ resolvedLat s ≠ some 0) ∧
  (resolvedLon s ≠ none ∧ resolvedLon s ≠ some 0)

instance (s : Station) : Decidable (drawCond s) :=
  inferInstanceAs (Decidable (_ ∧ _))

/-- The marker the claim says is drawn for a qualifying station. -/
def claimMarker (s : Station) : FuelMarker :=
  { lat := (resolvedLat s).getD 0
    lon := (resolvedLon s).getD 0
    popup := s.tags_name.getD "Fuel Station" }

/-- A node element lying exactly on the equator (latitude 0). -/
def equatorStation : Station :=
  { lat := some 0, lon := some 5, center_lat := none, center_lon := none,
    tags_name := some "EquatorFuel" }

/-- A node element with no `tags.name`. -/
def unnamedStation : Station :=
  { lat := some 1, lon := some 2, center_lat := none, center_lon := none,
    tags_name := none }

theorem digitChar_isDigit {d : Nat} (hd : d < 10) : (Nat.digitChar d).isDigit = true := by
  interval_cases d <;> decide

theorem natDigitsAux_all_digits :
    ∀ (fuel n : Nat), n < fuel → ∀ c ∈ natDigitsAux fuel n, c.isDigit = true := by
  intro fuel
  induction fuel with
  | zero => intro n hn; omega
  | succ f ih =>
    intro n hn c hc
    rw [natDigitsAux] at hc
    by_cases h10 : n < 10
    · simp only [if_pos h10, List.mem_singleton] at hc
      exact hc ▸ digitChar_isDigit h10
    · simp only [if_neg h10, List.mem_append, List.mem_singleton] at hc
      rcases hc with hc | hc
      · have hdiv : n / 10 < n := Nat.div_lt_self (by omega) (by omega)
        exact ih (n / 10) (by omega) c hc
      · exact hc ▸ digitChar_isDigit (Nat.mod_lt n (by omega))

theorem natDigitsAux_ne_nil (fuel n : Nat) (hf : 0 < fuel) :
    natDigitsAux fuel n ≠ [] := by
  cases fuel with
  | zero => omega
  | succ f =>
    rw [natDigitsAux]
    by_cases h10 : n < 10
    · simp [h10]
    · simp [h10]

theorem natDigits_all_digits (n : Nat) : ∀ c ∈ natDigits n, c.isDigit = true :=
  natDigitsAux_all_digits (n + 1) n (Nat.lt_succ_self n)

theorem natDigits_ne_nil (n : Nat) : natDigits n ≠ [] :=
  natDigitsAux_ne_nil (n + 1) n (Nat.succ_pos n)

theorem isDigit_not_whitespace {c : Char} (h : c.isDigit = true) :
    c.isWhitespace = false := by
  simp only [Char.isDigit] at h
  simp only [Char.isWhitespace]
  have h1 := (Bool.and_eq_true _ _).mp h
  rcases h1 with ⟨hle, _⟩
  simp only [decide_eq_true_eq] at hle
  have : ('0' : Char) ≤ c := hle
  have hval : (48 : UInt32) ≤ c.val := this
  simp only [Bool.or_eq_false_iff, decide_eq_false_iff_not]
  refine ⟨⟨⟨fun hc => ?_, fun hc => ?_⟩, fun hc => ?_⟩, fun hc => ?_⟩ <;>
    subst hc <;> simp_all

/-- `lstrip` leaves a list alone when its head is not whitespace. -/
theorem lstripChars_of_head (c : Char) (xs : List Char) (h : c.isWhitespace = false) :
    lstripChars (c :: xs) = c :: xs := by
  simp [lstripChars, List.dropWhile_cons, h]

theorem lstripChars_append_of_ne_nil (xs ys : List Char) (hne : xs ≠ [])
    (hd : ∀ c ∈ xs, c.isWhitespace = false) :
    lstripChars (xs ++ ys) = xs ++ ys := by
  cases xs with
  | nil => exact absurd rfl hne
  | cons c t =>
    simpa using lstripChars_of_head c (t ++ ys) (hd c (List.mem_cons_self c t))

/-- `rstrip` leaves a list ending in a non-whitespace character alone. -/
theorem rstripChars_append_singleton (xs : List Char) (c : Char)
    (h : c.isWhitespace = false) :
    rstripChars (xs ++ [c]) = xs ++ [c] := by
  simp [rstripChars, List.dropWhile_cons, h]

/-- `rstrip` removes a trailing space. -/
theorem rstripChars_append_space (xs : List Char) :
    rstripChars (xs ++ [' ']) = rstripChars xs := by
  simp [rstripChars, List.dropWhile_cons]

theorem dropWhile_eq_self_of_head (p : Char → Bool) (xs : List Char)
    (h : ∀ c, xs.head? = some c → p c = false) : xs.dropWhile p = xs := by
  cases xs with
  | nil => rfl
  | cons a t => simp [List.dropWhile_cons, h a rfl]

theorem head?_dropWhile_false (p : Char → Bool) (xs : List Char) :
    ∀ c, (xs.dropWhile p).head? = some c → p c = false := by
  induction xs with
  | nil => intro c hc; simp at hc
  | cons a t ih =>
    intro c hc
    rw [List.dropWhile_cons] at hc
    cases hpa : p a with
    | true => exact ih c (by simpa [hpa] using hc)
    | false =>
      simp only [hpa, if_neg Bool.false_ne_true, List.head?_cons, Option.some.injEq] at hc
      exact hc ▸ hpa

theorem lstripChars_eq_self (xs : List Char)
    (h : ∀ c, xs.head? = some c → c.isWhitespace = false) : lstripChars xs = xs :=
  dropWhile_eq_self_of_head _ xs h

theorem rstripChars_eq_self (xs : List Char)
    (h : ∀ c, xs.getLast? = some c → c.isWhitespace = false) : rstripChars xs = xs := by
  unfold rstripChars
  have hrev : xs.reverse.dropWhile Char.isWhitespace = xs.reverse := by
    apply dropWhile_eq_self_of_head
    intro c hc
    rw [List.head?_reverse] at hc
    exact h c hc
  rw [hrev, List.reverse_reverse]

theorem stripChars_eq_self (xs : List Char)
    (hh : ∀ c, xs.head? = some c → c.isWhitespace = false)
    (hl : ∀ c, xs.getLast? = some c → c.isWhitespace = false) : stripChars xs = xs := by
  unfold stripChars
  rw [lstripChars_eq_self xs hh, rstripChars_eq_self xs hl]

theorem stripChars_append_space_eq (xs : List Char)
    (hh : ∀ c, xs.head? = some c → c.isWhitespace = false)
    (hl : ∀ c, xs.getLast? = some c → c.isWhitespace = false) :
    stripChars (xs ++ [' ']) = xs := by
  cases xs with
  | nil => rfl
  | cons a t =>
    unfold stripChars
    have h1 : lstripChars ((a :: t) ++ [' ']) = (a :: t) ++ [' '] := by
      apply lstripChars_eq_self
      intro c hc
      simp only [List.cons_append, List.head?_cons, Option.some.injEq] at hc
      exact hc ▸ hh a rfl
    rw [h1, rstripChars_append_space, rstripChars_eq_self (a :: t) hl]

theorem head?_cond_natDigits_append (k : Nat) (ys : List Char) :
    ∀ c, (natDigits k ++ ys).head? = some c → c.isWhitespace = false := by
  obtain ⟨a, t, hat⟩ := List.exists_cons_of_ne_nil (natDigits_ne_nil k)
  intro c hc
  rw [hat] at hc
  simp only [List.cons_append, List.head?_cons, Option.some.injEq] at hc
  rw [← hc]
  exact isDigit_not_whitespace (natDigits_all_digits k a (hat ▸ List.mem_cons_self a t))

/-- Stripping a string that starts with a digit block and ends in a
non-whitespace character is the identity. -/
theorem strip_digits_block (k : Nat) (ys : List Char) (c : Char)
    (hc : c.isWhitespace = false) :
    stripChars (natDigits k ++ (ys ++ [c])) = natDigits k ++ (ys ++ [c]) := by
  apply stripChars_eq_self
  · exact head?_cond_natDigits_append k _
  · intro d hd
    have he : (natDigits k ++ (ys ++ [c])) = (natDigits k ++ ys) ++ [c] := by simp
    rw [he, List.getLast?_concat] at hd
    cases hd
    exact hc

/-- Stripping a string that starts with a digit block and ends in a
non-whitespace character followed by one space removes exactly that space. -/
theorem strip_digits_block_space (k : Nat) (ys : List Char) (c : Char)
    (hc : c.isWhitespace = false) :
    stripChars ((natDigits k ++ (ys ++ [c])) ++ [' ']) = natDigits k ++ (ys ++ [c]) := by
  apply stripChars_append_space_eq
  · exact head?_cond_natDigits_append k _
  · intro d hd
    have he : (natDigits k ++ (ys ++ [c])) = (natDigits k ++ ys) ++ [c] := by simp
    rw [he, List.getLast?_concat] at hd
    cases hd
    exact hc

/-- Core computation behind `format_duration`: the built-then-stripped string
equals the spec's space-joined unit fragments, for any split `h`/`m`/`s` that
is not all-zero. -/
theorem strip_build_eq_intercalate (h m s : Nat) (hne : ¬(h = 0 ∧ m = 0 ∧ s = 0)) :
    (stripChars
      (((if h > 0 then natDigits h ++ ['h', ' '] else []) ++
          (if m > 0 then natDigits m ++ ['m', ' '] else [])) ++
        (if s > 0 ∨
            ((if h > 0 then natDigits h ++ ['h', ' '] else []) ++
              (if m > 0 then natDigits m ++ ['m', ' '] else [])) = []
          then natDigits s ++ ['s'] else []))) =
    List.intercalate [' ']
      ((if h > 0 then [natDigits h ++ ['h']] else []) ++
        (if m > 0 then [natDigits m ++ ['m']] else []) ++
        (if s > 0 ∨ (h = 0 ∧ m = 0) then [natDigits s ++ ['s']] else [])) := by
  rcases Nat.eq_zero_or_pos h with hh | hh <;> rcases Nat.eq_zero_or_pos m with hm | hm <;>
    rcases Nat.eq_zero_or_pos s with hs | hs
  · exact absurd ⟨hh, hm, hs⟩ hne
  · -- h = 0, m = 0, s > 0
    subst hh; subst hm
    simp only [if_neg (by omega : ¬(0 : Nat) > 0)]
    rw [if_pos (Or.inl hs), if_pos (Or.inl hs)]
    rw [show (([] : List Char) ++ []) ++ (natDigits s ++ ['s']) =
      natDigits s ++ ([] ++ ['s']) from by simp,
      strip_digits_block s [] 's' (by decide)]
    simp [List.intercalate, List.intersperse]
  · -- h = 0, m > 0, s = 0
    subst hh; subst hs
    simp only [if_neg (by omega : ¬(0 : Nat) > 0), if_pos hm]
    rw [if_neg (by simp : ¬((0 : Nat) > 0 ∨
        ([] : List Char) ++ (natDigits m ++ ['m', ' ']) = []))]
    rw [show (([] : List Char) ++ (natDigits m ++ ['m', ' '])) ++ ([] : List Char) =
      (natDigits m ++ ([] ++ ['m'])) ++ [' '] from by simp,
      strip_digits_block_space m [] 'm' (by decide)]
    simp [List.intercalate, List.intersperse, hm.ne']
  · -- h = 0, m > 0, s > 0
    subst hh
    simp only [if_neg (by omega : ¬(0 : Nat) > 0), if_pos hm]
    rw [if_pos (Or.inl hs), if_pos (Or.inl hs)]
    rw [show (([] : List Char) ++ (natDigits m ++ ['m', ' '])) ++ (natDigits s ++ ['s']) =
      natDigits m ++ ((['m', ' '] ++ natDigits s) ++ ['s']) from by simp,
      strip_digits_block m (['m', ' '] ++ natDigits s) 's' (by decide)]
    simp [List.intercalate, List.intersperse]
  · -- h > 0, m = 0, s = 0
    subst hm; subst hs
    simp only [if_pos hh, if_neg (by omega : ¬(0 : Nat) > 0)]
    rw [if_neg (by simp : ¬((0 : Nat) > 0 ∨
        (natDigits h ++ ['h', ' ']) ++ ([] : List Char) = []))]
    rw [show ((natDigits h ++ ['h', ' ']) ++ ([] : List Char)) ++ ([] : List Char) =
      (natDigits h ++ ([] ++ ['h'])) ++ [' '] from by simp,
      strip_digits_block_space h [] 'h' (by decide)]
    simp [List.intercalate, List.intersperse, hh.ne']
  · -- h > 0, m = 0, s > 0
    subst hm
    simp only [if_pos hh, if_neg (by omega : ¬(0 : Nat) > 0)]
    rw [if_pos (Or.inl hs), if_pos (Or.inl hs)]
    rw [show ((natDigits h ++ ['h', ' ']) ++ ([] : List Char)) ++ (natDigits s ++ ['s']) =
      natDigits h ++ ((['h', ' '] ++ natDigits s) ++ ['s']) from by simp,
      strip_digits_block h (['h', ' '] ++ natDigits s) 's' (by decide)]
    simp [List.intercalate, List.intersperse]
  · -- h > 0, m > 0, s = 0
    subst hs
    simp only [if_pos hh, if_pos hm]
    rw [if_neg (by simp : ¬((0 : Nat) > 0 ∨
        (natDigits h ++ ['h', ' ']) ++ (natDigits m ++ ['m', ' ']) = [])),
      if_neg (by omega : ¬((0 : Nat) > 0 ∨ (h = 0 ∧ m = 0)))]
    rw [show ((natDigits h ++ ['h', ' ']) ++ (natDigits m ++ ['m', ' '])) ++ ([] : List Char) =
      (natDigits h ++ ((['h', ' '] ++ natDigits m) ++ ['m'])) ++ [' '] from by simp,
      strip_digits_block_space h (['h', ' '] ++ natDigits m) 'm' (by decide)]
    simp [List.intercalate, List.intersperse]
  · -- h > 0, m > 0, s > 0
    simp only [if_pos hh, if_pos hm]
    rw [if_pos (Or.inl hs), if_pos (Or.inl hs)]
    rw [show ((natDigits h ++ ['h', ' ']) ++ (natDigits m ++ ['m', ' '])) ++
        (natDigits s ++ ['s']) =
      natDigits h ++ ((['h', ' '] ++ natDigits m ++ ['m', ' '] ++ natDigits s) ++ ['s'])
      from by simp,
      strip_digits_block h (['h', ' '] ++ natDigits m ++ ['m', ' '] ++ natDigits s) 's'
        (by decide)]
    simp [List.intercalate, List.intersperse]

theorem rstripChars_eq_rdropWhile (xs : List Char) :
    rstripChars xs = xs.rdropWhile Char.isWhitespace := rfl

theorem stripChars_idem (xs : List Char) : stripChars (stripChars xs) = stripChars xs := by
  unfold stripChars
  have h1 : lstripChars (rstripChars (lstripChars xs)) = rstripChars (lstripChars xs) := by
    rcases hr : rstripChars (lstripChars xs) with _ | ⟨a, t⟩
    · rfl
    · have hpre : rstripChars (lstripChars xs) <+: lstripChars xs := by
        rw [rstripChars_eq_rdropWhile]
        exact List.rdropWhile_prefix _ _
      rw [hr] at hpre
      obtain ⟨rest, hrest⟩ := hpre
      have hhd : (lstripChars xs).head? = some a := by
        rw [← hrest]; rfl
      exact lstripChars_of_head a t (head?_dropWhile_false _ xs a hhd)
  rw [h1, rstripChars_eq_rdropWhile, rstripChars_eq_rdropWhile,
    List.rdropWhile_idempotent]

theorem format_duration_eq_spec (x : Option Nat) :
    format_duration x = format_duration_spec x := by
  cases x with
  | none => rfl
  | some n =>
    by_cases hn : n = 0
    · simp [format_duration, format_duration_spec, hn]
    · rw [format_duration, format_duration_spec, if_neg hn, if_neg hn]
      exact strip_build_eq_intercalate ((n / 60) / 60) ((n / 60) % 60) (n % 60) (by omega)

theorem stripChars_format_duration (x : Option Nat) :
    stripChars (format_duration x) = format_duration x := by
  cases x with
  | none => decide
  | some n =>
    rw [format_duration]
    by_cases hn : n = 0
    · rw [if_pos hn]; decide
    · rw [if_neg hn]
      exact stripChars_idem _

/-- C2: for every non-negative integer (or absent) number of seconds,
`format_duration` produces `"<H>h <M>m <S>s"` with a unit omitted when it is
zero, except that zero or absent input formats as exactly `"0s"` and the
seconds component is included whenever seconds > 0 or no larger unit was
emitted (this composite behaviour is captured by `format_duration_spec`,
written from the specification's words); the result never has a leading or
trailing space (it is a fixed point of stripping); and the spec's examples
hold: 3725 ↦ "1h 2m 5s", 65 ↦ "1m 5s", 45 ↦ "45s", 3600 ↦ "1h", 0 ↦ "0s". -/
theorem claim_C2_format_duration :
    (∀ x : Option Nat,
        format_duration x = format_duration_spec x ∧
        stripChars (format_duration x) = format_duration x) ∧
    format_duration (some 3725) = ("1h 2m 5s").data ∧
    format_duration (some 65) = ("1m 5s").data ∧
    format_duration (some 45) = ("45s").data ∧
    format_duration (some 3600) = ("1h").data ∧
    format_duration (some 0) = ("0s").data ∧
    format_duration none = ("0s").data := by
  refine ⟨fun x => ⟨format_duration_eq_spec x, stripChars_format_duration x⟩,
    ?_, ?_, ?_, ?_, ?_, ?_⟩ <;> decide

theorem sliceAux_length (step : Nat) (hstep : 1 ≤ step) :
    ∀ (xs : List Point) (c : Nat), c ≤ step - 1 →
      (sliceAux step c xs).length = (xs.length + (step - 1) - c) / step := by
  intro xs
  induction xs with
  | nil =>
    intro c hc
    simp only [sliceAux, List.length_nil]
    rw [Nat.div_eq_of_lt (by omega)]
  | cons x xs ih =>
    intro c hc
    match c with
    | 0 =>
      rw [sliceAux, List.length_cons, List.length_cons,
        ih (step - 1) (Nat.le_refl _)]
      have h1 : xs.length + (step - 1) - (step - 1) = xs.length := by omega
      have h2 : xs.length + 1 + (step - 1) - 0 = xs.length + step := by omega
      rw [h1, h2, Nat.add_div_right _ (by omega)]
    | c + 1 =>
      rw [sliceAux, List.length_cons, ih c (by omega)]
      have h3 : xs.length + 1 + (step - 1) - (c + 1) = xs.length + (step - 1) - c := by
        omega
      rw [h3]

theorem pySlice_length (xs : List Point) (step : Nat) (hstep : 1 ≤ step) :
    (pySlice xs step).length = (xs.length + step - 1) / step := by
  rw [pySlice, sliceAux_length step hstep xs 0 (by omega)]
  congr 1
  omega

theorem sliceAux_getD (step : Nat) (hstep : 1 ≤ step) :
    ∀ (xs : List Point) (c i : Nat) (d : Point),
      (sliceAux step c xs).getD i d = xs.getD (c + i * step) d := by
  intro xs
  induction xs with
  | nil => intro c i d; simp [sliceAux]
  | cons x xs ih =>
    intro c i d
    match c with
    | 0 =>
      rw [sliceAux]
      match i with
      | 0 => simp
      | j + 1 =>
        rw [List.getD_cons_succ, ih (step - 1) j d]
        have he : 0 + (j + 1) * step = ((step - 1) + j * step) + 1 := by
          rw [Nat.succ_mul]
          omega
        rw [he, List.getD_cons_succ]
    | c + 1 =>
      rw [sliceAux, ih c i d]
      have h2 : c + 1 + i * step = (c + i * step) + 1 := by omega
      rw [h2, List.getD_cons_succ]

theorem pySlice_getD (xs : List Point) (step : Nat) (hstep : 1 ≤ step)
    (i : Nat) (d : Point) : (pySlice xs step).getD i d = xs.getD (i * step) d := by
  rw [pySlice, sliceAux_getD step hstep xs 0 i d, Nat.zero_add]

theorem sliceAux_sublist (step : Nat) :
    ∀ (xs : List Point) (c : Nat), List.Sublist (sliceAux step c xs) xs := by
  intro xs
  induction xs with
  | nil => intro c; simp [sliceAux]
  | cons x xs ih =>
    intro c
    match c with
    | 0 => rw [sliceAux]; exact (ih (step - 1)).cons₂ x
    | c + 1 => rw [sliceAux]; exact (ih c).cons x

theorem pySlice_head? (xs : List Point) (step : Nat) :
    (pySlice xs step).head? = xs.head? := by
  cases xs with
  | nil => rfl
  | cons x xs => rw [pySlice, sliceAux]; rfl

/-- C3 counterexample: the claim "the downsampling produces a list of at most
50 points" fails on a 120-point path: the stride is `120 // 50 = 2` and the
slice `points[::2]` has 60 > 50 elements. -/
theorem claim_C3_counterexample :
    pts120.length > MAX_QUERY_POINTS ∧
    ¬((downsamplePoints pts120).length ≤ MAX_QUERY_POINTS) := by
  decide

/-- C3 (amended): for every decoded path longer than the 50-point cap, the
downsampling is the deterministic uniform-stride selection of every
`(len // 50)`-th point (order-preserving, first point kept, element `i` of the
result is element `i * (len // 50)` of the path); its length is
`⌈len / (len // 50)⌉`, which can exceed the 50-point cap (it is only bounded
by 99). -/
theorem claim_C3_downsample_stride (pts : List Point)
    (h : pts.length > MAX_QUERY_POINTS) :
    downsamplePoints pts = pySlice pts (pts.length / MAX_QUERY_POINTS) ∧
    (downsamplePoints pts).length =
      (pts.length + pts.length / MAX_QUERY_POINTS - 1) /
          (pts.length / MAX_QUERY_POINTS) ∧
    (downsamplePoints pts).length ≤ 99 ∧
    (downsamplePoints pts).head? = pts.head? ∧
    List.Sublist (downsamplePoints pts) pts ∧
    (∀ i d, (downsamplePoints pts).getD i d =
      pts.getD (i * (pts.length / MAX_QUERY_POINTS)) d) := by
  have h50 : MAX_QUERY_POINTS = 50 := rfl
  have hs : 1 ≤ pts.length / MAX_QUERY_POINTS := by
    rw [h50]
    rw [h50] at h
    omega
  have hd : downsamplePoints pts = pySlice pts (pts.length / MAX_QUERY_POINTS) := by
    rw [downsamplePoints, if_pos h]
  refine ⟨hd, ?_, ?_, ?_, ?_, ?_⟩
  · rw [hd, pySlice_length _ _ hs]
  · rw [hd, pySlice_length _ _ hs]
    rw [h50] at h hs ⊢
    have hlt : (pts.length + pts.length / 50 - 1) / (pts.length / 50) < 100 := by
      rw [Nat.div_lt_iff_lt_mul (by omega)]
      omega
    omega
  · rw [hd, pySlice_head?]
  · rw [hd]
    exact sliceAux_sublist _ pts 0
  · intro i d
    rw [hd, pySlice_getD _ _ hs]

theorem claim_C3_downsample_stride_witness :
    downsamplePoints pts120 = pySlice pts120 (pts120.length / MAX_QUERY_POINTS) ∧
    (downsamplePoints pts120).length ≤ 99 := by
  obtain ⟨h1, _, h3, _, _, _⟩ := claim_C3_downsample_stride pts120 (by decide)
  exact ⟨h1, h3⟩

set_option maxRecDepth 20000 in
/-- C4: downsampling a 120-point decoded path uses the fixed stride
`step = 120 // 50 = 2` and yields exactly `⌈120 / 2⌉ = 60` points, always
including the first point of the path and preserving the original order
(the result is a sublist whose `i`-th element is the path's `2*i`-th
element); on the concrete 120-point path `pts120` the final point is
silently dropped. -/
theorem claim_C4_downsample120 (pts : List Point) (h : pts.length = 120) :
    pts.length / MAX_QUERY_POINTS = 2 ∧
    (downsamplePoints pts).length = 60 ∧
    (downsamplePoints pts).head? = pts.head? ∧
    List.Sublist (downsamplePoints pts) pts ∧
    (∀ i d, (downsamplePoints pts).getD i d = pts.getD (i * 2) d) ∧
    pts120.getLast? = some ((119 : ℚ), 0) ∧
    ((119 : ℚ), 0) ∉ downsamplePoints pts120 := by
  have hgt : pts.length > MAX_QUERY_POINTS := by rw [h]; decide
  have hstep : pts.length / MAX_QUERY_POINTS = 2 := by rw [h]; rfl
  have hd : downsamplePoints pts = pySlice pts 2 := by
    rw [downsamplePoints, if_pos hgt, hstep]
  refine ⟨hstep, ?_, ?_, ?_, ?_, ?_, ?_⟩
  · rw [hd, pySlice_length _ _ (by omega), h]
  · rw [hd, pySlice_head?]
  · rw [hd]
    exact sliceAux_sublist _ pts 0
  · intro i d
    rw [hd, pySlice_getD _ _ (by omega)]
  · decide
  · decide

theorem claim_C4_downsample120_witness :
    pts120.length / MAX_QUERY_POINTS = 2 ∧
    (downsamplePoints pts120).length = 60 ∧
    (downsamplePoints pts120).getD 1 (0, 0) = pts120.getD 2 (0, 0) := by
  obtain ⟨h1, h2, _, _, h5, _, _⟩ := claim_C4_downsample120 pts120 (by decide)
  exact ⟨h1, h2, h5 1 (0, 0)⟩

theorem filter_orderedInsert_pos (p : Route → Bool) (x : Route)
    (hskip : ∀ z, ¬ routeLE x z → p z = false) (hx : p x = true) :
    ∀ s : List Route, (List.orderedInsert routeLE x s).filter p = x :: s.filter p := by
  intro s
  induction s with
  | nil => simp [List.orderedInsert, hx]
  | cons y ys ih =>
    rw [List.orderedInsert]
    by_cases hxy : routeLE x y
    · rw [if_pos hxy, List.filter_cons, if_pos (by simp [hx])]
    · rw [if_neg hxy, List.filter_cons, if_neg (by simp [hskip y hxy]), ih,
        List.filter_cons, if_neg (by simp [hskip y hxy])]

theorem filter_orderedInsert_neg (p : Route → Bool) (x : Route) (hx : p x = false) :
    ∀ s : List Route, (List.orderedInsert routeLE x s).filter p = s.filter p := by
  intro s
  induction s with
  | nil => simp [List.orderedInsert, hx]
  | cons y ys ih =>
    rw [List.orderedInsert]
    by_cases hxy : routeLE x y
    · rw [if_pos hxy, List.filter_cons, if_neg (by simp [hx])]
    · rw [if_neg hxy, List.filter_cons, ih, List.filter_cons]

/-- Stability of the duration sort: restricting to any single key value
preserves the service-provided order. -/
theorem filter_insertionSort (d : WithTop ℚ) (l : List Route) :
    (List.insertionSort routeLE l).filter (fun r => decide (durationKey r = d)) =
      l.filter (fun r => decide (durationKey r = d)) := by
  induction l with
  | nil => rfl
  | cons x l ih =>
    rw [List.insertionSort]
    by_cases hx : durationKey x = d
    · rw [filter_orderedInsert_pos _ x ?hskip (by simp [hx]), ih,
        List.filter_cons, if_pos (by simp [hx])]
      case hskip =>
        intro z hz
        simp only [decide_eq_false_iff_not]
        intro hzd
        exact hz (le_of_eq (hzd.trans hx.symm).symm)
    · rw [filter_orderedInsert_neg _ x (by simp [hx]), ih,
        List.filter_cons, if_neg (by simp [hx])]

/-- C1: for every route set returned by the routing client with more than one
element, the set stored in session state after a submit is the stable
ascending sort of the returned set by duration (missing durations sorting
last): the stored sequence is a permutation of the returned one, the keys are
non-decreasing along it, routes with any given duration keep their
service-provided relative order, and the default selected index is 0 (the
minimum-duration route). -/
theorem claim_C1_sorted_routes (rs : List Route) (coords : List Coord)
    (st : SessionState) (d : WithTop ℚ) (h : 1 < rs.length) :
    (applyRouteResponse (some rs) coords st).routes.Perm rs ∧
    (applyRouteResponse (some rs) coords st).routes.Pairwise routeLE ∧
    ((applyRouteResponse (some rs) coords st).routes.filter
        (fun r => decide (durationKey r = d)))
      = rs.filter (fun r => decide (durationKey r = d)) ∧
    (applyRouteResponse (some rs) coords st).selected_route_index = 0 := by
  have hne : rs.isEmpty = false := by
    cases rs with
    | nil => simp at h
    | cons a t => rfl
  have happ : applyRouteResponse (some rs) coords st =
      { st with
        routes := sortRoutes rs
        selected_route_index := 0
        all_coords := coords } := by
    rw [applyRouteResponse]
    simp [hne]
  rw [happ]
  exact ⟨List.perm_insertionSort routeLE rs, List.sorted_insertionSort routeLE rs,
    filter_insertionSort d rs, rfl⟩

theorem claim_C1_sorted_routes_witness :
    (applyRouteResponse (some [routeA, routeB]) [] initState).routes.Perm
      [routeA, routeB] ∧
    ((applyRouteResponse (some [routeA, routeB]) [] initState).routes.filter
        (fun r => decide (durationKey r = (100 : ℚ))))
      = [routeA, routeB].filter (fun r => decide (durationKey r = (100 : ℚ))) ∧
    (applyRouteResponse (some [routeA, routeB]) [] initState).selected_route_index
      = 0 := by
  obtain ⟨h1, _, h3, h4⟩ :=
    claim_C1_sorted_routes [routeA, routeB] [] initState ((100 : ℚ) : WithTop ℚ)
      (by simp)
  exact ⟨h1, h3, h4⟩

theorem applyRouteResponse_valid (resp : Option (List Route)) (coords : List Coord)
    (st : SessionState) :
    (applyRouteResponse resp coords st).routes ≠ [] →
      (applyRouteResponse resp coords st).selected_route_index <
        (applyRouteResponse resp coords st).routes.length := by
  rcases resp with _ | rs
  · intro h
    exact absurd rfl h
  · cases hrs : rs.isEmpty with
    | true => intro h; simp [applyRouteResponse, hrs] at h
    | false =>
      intro _
      simp only [applyRouteResponse, Option.getD_some, hrs]
      simp only [Bool.false_eq_true, if_false]
      have hlen : (sortRoutes rs).length = rs.length :=
        (List.perm_insertionSort routeLE rs).length_eq
      have : rs ≠ [] := by
        cases rs with
        | nil => simp at hrs
        | cons a t => simp
      rw [hlen]
      exact List.length_pos.mpr this

/-- The while-the-set-is-nonempty form of the selected-index invariant, by
induction over reachable states. -/
theorem reachable_selected_valid (st : SessionState) (hst : Reachable st) :
    st.routes ≠ [] → st.selected_route_index < st.routes.length := by
  induction hst with
  | init => intro hr; exact absurd rfl hr
  | next st e _ ih =>
    cases e with
    | submitPlaces geocode routeService sp ep =>
      simp only [step]
      split
      · exact applyRouteResponse_valid _ _ _
      · exact ih
    | submitCoords routeService s e =>
      simp only [step]
      exact applyRouteResponse_valid _ _ _
    | selectRoute i =>
      simp only [step]
      split
      · next hguard => intro _; exact hguard.2
      · exact ih
    | addDestination name =>
      simp only [step]
      split
      · exact ih
      · exact ih
    | removeDestination i =>
      simp only [step]
      exact ih

/-- C5 (amended): in every reachable session state whose route set is
non-empty, the selected index is valid (0 ≤ index < length); the index is
reset to 0 whenever a successful fetch stores a (non-empty) new route set;
but when a routing failure replaces the stored set with the empty set the
prior selected index is retained, not reset. -/
theorem claim_C5_selected_index_invariant (st : SessionState) (hst : Reachable st) :
    (st.routes ≠ [] → st.selected_route_index < st.routes.length) ∧
    (∀ (rs : List Route) (coords : List Coord) (st2 : SessionState),
      rs ≠ [] → (applyRouteResponse (some rs) coords st2).selected_route_index = 0) ∧
    (∀ (coords : List Coord) (st2 : SessionState),
      (applyRouteResponse none coords st2).routes = [] ∧
      (applyRouteResponse none coords st2).selected_route_index =
        st2.selected_route_index) := by
  refine ⟨reachable_selected_valid st hst, ?_, ?_⟩
  · intro rs coords st2 hrs
    have hne : rs.isEmpty = false := by
      cases rs with
      | nil => exact absurd rfl hrs
      | cons a t => rfl
    simp [applyRouteResponse, hne]
  · intro coords st2
    exact ⟨rfl, rfl⟩

/-- C5 counterexample: after storing two routes and selecting index 1, a
failing submit replaces the stored set with the empty set but leaves the
selected index at 1 — the index is neither reset to 0 nor valid for the
(empty) current route set, refuting the claim as stated. -/
theorem claim_C5_counterexample :
    Reachable stTrace3 ∧
    stTrace2.routes.length = 2 ∧
    stTrace2.selected_route_index = 1 ∧
    stTrace3.routes = [] ∧
    stTrace3.selected_route_index = 1 ∧
    ¬ (stTrace3.selected_route_index < stTrace3.routes.length) := by
  refine ⟨?_, by decide, by decide, by decide, by decide, by decide⟩
  exact Reachable.next stTrace2 (Event.submitCoords svcFail (0, 0) (1, 1))
    (Reachable.next stTrace1 (Event.selectRoute 1)
      (Reachable.next initState (Event.submitCoords svcTwo (0, 0) (1, 1))
        Reachable.init))

theorem claim_C5_selected_index_invariant_witness :
    (stTrace1.routes ≠ [] → stTrace1.selected_route_index < stTrace1.routes.length) ∧
    (applyRouteResponse (some [routeA]) [] initState).selected_route_index = 0 := by
  obtain ⟨h1, h2, _⟩ := claim_C5_selected_index_invariant stTrace1
    (Reachable.next initState (Event.submitCoords svcTwo (0, 0) (1, 1)) Reachable.init)
  exact ⟨h1, h2 [routeA] [] initState (by simp)⟩

theorem geocodeAll_eq_none_of_mem (geocode : String → Option (ℚ × ℚ)) :
    ∀ l : List String, (∃ p ∈ l, geocode p = none) → geocodeAll geocode l = none := by
  intro l
  induction l with
  | nil =>
    rintro ⟨p, hp, _⟩
    simp at hp
  | cons q qs ih =>
    rintro ⟨p, hp, hfail⟩
    rw [geocodeAll]
    rcases List.mem_cons.mp hp with rfl | hmem
    · rw [hfail]
    · cases hq : geocode q with
      | none => rfl
      | some c =>
        obtain ⟨lat, lon⟩ := c
        rw [ih ⟨p, hmem, hfail⟩]
        rfl

/-- C6: for every submission in name mode where geocoding fails for some
place in the sequence, no routing request is issued, the whole trip request
is cancelled, and the previously stored route set / selected index /
coordinates in session state are left unchanged. -/
theorem claim_C6_geocode_failure
    (geocode : String → Option (ℚ × ℚ))
    (routeService : List Coord → Option (List Route))
    (sp ep : String) (st : SessionState)
    (h : ∃ p ∈ [sp] ++ st.destinations ++ [ep], geocode p = none) :
    (step (Event.submitPlaces geocode routeService sp ep) st).1.routes = st.routes ∧
    (step (Event.submitPlaces geocode routeService sp ep) st).1.selected_route_index
      = st.selected_route_index ∧
    (step (Event.submitPlaces geocode routeService sp ep) st).1.all_coords
      = st.all_coords ∧
    (step (Event.submitPlaces geocode routeService sp ep) st).2 = false := by
  have hg : geocodeAll geocode (sp :: (st.destinations ++ [ep])) = none := by
    simpa using geocodeAll_eq_none_of_mem geocode _ h
  simp [step, hg]

theorem claim_C6_geocode_failure_witness :
    (step (Event.submitPlaces geoFailB svcTwo "A" "C") stPrior).1.routes
      = stPrior.routes ∧
    (step (Event.submitPlaces geoFailB svcTwo "A" "C") stPrior).2 = false := by
  obtain ⟨h1, _, _, h4⟩ := claim_C6_geocode_failure geoFailB svcTwo "A" "C" stPrior
    ⟨"B", by simp [stPrior], by decide⟩
  exact ⟨h1, h4⟩

theorem legRows_map_stepNo (numLegs legIdx : Nat) :
    ∀ (steps : List RouteStep) (counter : Nat),
      (legRows numLegs legIdx counter steps).map (fun row => row.stepNo) =
        List.range' counter steps.length := by
  intro steps
  induction steps with
  | nil => intro c; rfl
  | cons s rest ih =>
    intro c
    rw [legRows, List.map_cons, ih (c + 1), List.length_cons, List.range'_succ]

theorem routeRowsAux_map_stepNo (numLegs : Nat) :
    ∀ (legs : List Leg) (counter legIdx : Nat),
      (routeRowsAux numLegs counter legIdx legs).map (fun row => row.stepNo) =
        List.range' counter ((legs.map (fun l => l.steps.length)).sum) := by
  intro legs
  induction legs with
  | nil => intro c i; rfl
  | cons leg rest ih =>
    intro c i
    rw [routeRowsAux, List.map_append, legRows_map_stepNo numLegs i leg.steps c,
      ih (c + leg.steps.length) (i + 1), List.map_cons, List.sum_cons,
      Nat.add_comm leg.steps.length ((rest.map (fun l => l.steps.length)).sum)]
    exact List.range'_append_1 c leg.steps.length _

/-- C7: the itinerary formatter derives each step's instruction by the stated
precedence — "depart" renders "Depart on road" or plain "Depart" with no road
name; "new name" renders "Continue onto road"; "arrive" on any leg except the
last renders "You have arrived at Waypoint n." with n the 1-based waypoint
index; "arrive" on the final leg uses the service instruction, defaulting to
"You have arrived at your final destination." when absent; all other
maneuvers render the space-join of the non-empty parts among title-cased
type, modifier, and "onto road" — and step numbering is a single 1-based
running counter contiguous across leg boundaries. -/
theorem claim_C7_itinerary :
    (∀ r : Route, (create_route_details_df r).map (fun row => row.stepNo) =
        List.range' 1 ((r.legs.map (fun l => l.steps.length)).sum)) ∧
    (∀ (numLegs legIdx : Nat) (s : RouteStep), s.maneuver_type = some "depart" →
      stepInstruction numLegs legIdx s =
        (if s.name.getD "" ≠ "" then "Depart on " ++ s.name.getD "" else "Depart")) ∧
    (∀ (numLegs legIdx : Nat) (s : RouteStep), s.maneuver_type = some "new name" →
      stepInstruction numLegs legIdx s = "Continue onto " ++ s.name.getD "") ∧
    (∀ (numLegs legIdx : Nat) (s : RouteStep), s.maneuver_type = some "arrive" →
      legIdx < numLegs - 1 →
      stepInstruction numLegs legIdx s =
        "You have arrived at Waypoint " ++ toString (legIdx + 1) ++ ".") ∧
    (∀ (numLegs legIdx : Nat) (s : RouteStep), s.maneuver_type = some "arrive" →
      ¬(legIdx < numLegs - 1) →
      stepInstruction numLegs legIdx s =
        s.maneuver_instruction.getD "You have arrived at your final destination.") ∧
    (∀ (numLegs legIdx : Nat) (s : RouteStep),
      maneuverTypeOf s ∉ (["Depart", "New Name", "Arrive"] : List String) →
      stepInstruction numLegs legIdx s =
        String.intercalate " "
          (([maneuverTypeOf s, maneuverModifierOf s] ++
              (if s.name.getD "" ≠ "" then ["onto " ++ s.name.getD ""] else [])).filter
            (fun part => !part.isEmpty))) := by
  refine ⟨?_, ?_, ?_, ?_, ?_, ?_⟩
  · intro r
    rw [create_route_details_df]
    exact routeRowsAux_map_stepNo r.legs.length r.legs 1 0
  · intro numLegs legIdx s hmt
    have hd : maneuverTypeOf s = "Depart" := by
      rw [maneuverTypeOf, hmt]
      decide
    rw [stepInstruction, if_pos hd]
  · intro numLegs legIdx s hmt
    have hd : maneuverTypeOf s = "New Name" := by
      rw [maneuverTypeOf, hmt]
      decide
    rw [stepInstruction, hd, if_neg (by decide : ¬("New Name" = "Depart")),
      if_pos (rfl : "New Name" = "New Name")]
  · intro numLegs legIdx s hmt harr
    have hd : maneuverTypeOf s = "Arrive" := by
      rw [maneuverTypeOf, hmt]
      decide
    rw [stepInstruction, hd, if_neg (by decide : ¬("Arrive" = "Depart")),
      if_neg (by decide : ¬("Arrive" = "New Name")),
      if_pos ⟨rfl, harr⟩]
  · intro numLegs legIdx s hmt hnot
    have hd : maneuverTypeOf s = "Arrive" := by
      rw [maneuverTypeOf, hmt]
      decide
    rw [stepInstruction, hd, if_neg (by decide : ¬("Arrive" = "Depart")),
      if_neg (by decide : ¬("Arrive" = "New Name")),
      if_neg (fun hc => hnot hc.2), if_pos (rfl : "Arrive" = "Arrive")]
  · intro numLegs legIdx s hno
    have h1 : maneuverTypeOf s ≠ "Depart" := by
      intro he
      exact hno (by rw [he]; decide)
    have h2 : maneuverTypeOf s ≠ "New Name" := by
      intro he
      exact hno (by rw [he]; decide)
    have h3 : maneuverTypeOf s ≠ "Arrive" := by
      intro he
      exact hno (by rw [he]; decide)
    rw [stepInstruction, if_neg h1, if_neg h2, if_neg (fun hc => h3 hc.1), if_neg h3]

theorem claim_C7_itinerary_witness :
    (create_route_details_df exRoute).map (fun row => row.stepNo) =
      List.range' 1 5 ∧
    stepInstruction 2 0 departMain = "Depart on Main St" ∧
    stepInstruction 2 0 (mkStep (some "new name") none none (some "B St")) =
      "Continue onto B St" ∧
    stepInstruction 2 0 (mkStep (some "arrive") none none none) =
      "You have arrived at Waypoint 1." ∧
    stepInstruction 2 1 (mkStep (some "arrive") none none none) =
      "You have arrived at your final destination." ∧
    stepInstruction 2 1 (mkStep (some "arrive") none (some "X") none) = "X" ∧
    stepInstruction 2 0 (mkStep (some "turn") (some "left") none (some "Main St")) =
      "Turn Left onto Main St" := by
  obtain ⟨h1, h2, h3, h4, h5, h6⟩ := claim_C7_itinerary
  refine ⟨?_, ?_, ?_, ?_, ?_, ?_, ?_⟩
  · have := h1 exRoute
    simpa using this
  · exact (h2 2 0 departMain rfl).trans (by decide)
  · exact (h3 2 0 (mkStep (some "new name") none none (some "B St")) rfl).trans
      (by decide)
  · exact (h4 2 0 (mkStep (some "arrive") none none none) rfl (by decide)).trans
      (by decide)
  · exact (h5 2 1 (mkStep (some "arrive") none none none) rfl (by decide)).trans
      (by decide)
  · exact (h5 2 1 (mkStep (some "arrive") none (some "X") none) rfl (by decide)).trans
      (by decide)
  · exact (h6 2 0 (mkStep (some "turn") (some "left") none (some "Main St"))
      (by decide)).trans (by decide)

/-- C8: the fuel-station lookup returns the empty list on any failure and on
an empty decoded route, never raising: empty geometry yields a warning; a 504
(Gateway Timeout) yields a retry-later notice; any other HTTP error surfaces
the status/reason and the response body; a network failure surfaces a
warning; and only a successful response yields a non-empty station list. -/
theorem claim_C8_fuel_station_errors
    (pts : List Point) (radius : ℚ) (resp : HttpResult)
    (status : Nat) (reason body msg : String) (els : List Station)
    (hne : pts ≠ []) (hstatus : status ≠ 504) :
    get_fuel_stations_along_route [] radius resp =
      ([], [Notice.warnEmptyGeometry]) ∧
    get_fuel_stations_along_route pts radius (.httpError 504 reason body) =
      ([], [Notice.warnBusyRetryLater]) ∧
    get_fuel_stations_along_route pts radius (.httpError status reason body) =
      ([], [Notice.errorHttp status reason, Notice.codeBody body]) ∧
    get_fuel_stations_along_route pts radius (.networkError msg) =
      ([], [Notice.warnNetwork msg]) ∧
    get_fuel_stations_along_route pts radius (.success els) =
      (els, [Notice.infoFound els.length radius]) ∧
    ((get_fuel_stations_along_route pts radius resp).1 ≠ [] →
      ∃ els2, resp = .success els2 ∧
        (get_fuel_stations_along_route pts radius resp).1 = els2) := by
  have hb : pts.isEmpty = false := by
    cases pts with
    | nil => exact absurd rfl hne
    | cons a t => rfl
  refine ⟨rfl, ?_, ?_, ?_, ?_, ?_⟩
  · simp [get_fuel_stations_along_route, hb]
  · simp [get_fuel_stations_along_route, hb, hstatus]
  · simp [get_fuel_stations_along_route, hb]
  · simp [get_fuel_stations_along_route, hb]
  · intro hnonempty
    rcases resp with els2 | ⟨st, rs, bd⟩ | m
    · exact ⟨els2, rfl, by simp [get_fuel_stations_along_route, hb]⟩
    · exfalso
      apply hnonempty
      by_cases h504 : st = 504 <;> simp [get_fuel_stations_along_route, hb, h504]
    · exfalso
      apply hnonempty
      simp [get_fuel_stations_along_route, hb]

theorem claim_C8_fuel_station_errors_witness :
    get_fuel_stations_along_route [] 5000 (.networkError "down") =
      ([], [Notice.warnEmptyGeometry]) ∧
    get_fuel_stations_along_route [(1, 2)] 5000 (.httpError 504 "GT" "b") =
      ([], [Notice.warnBusyRetryLater]) ∧
    get_fuel_stations_along_route [(1, 2)] 5000 (.httpError 500 "ISE" "boom") =
      ([], [Notice.errorHttp 500 "ISE", Notice.codeBody "boom"]) ∧
    get_fuel_stations_along_route [(1, 2)] 5000 (.networkError "down") =
      ([], [Notice.warnNetwork "down"]) := by
  obtain ⟨h1, h2, h3, h4, _, _⟩ :=
    claim_C8_fuel_station_errors [(1, 2)] 5000 (.networkError "down")
      500 "ISE" "boom" "down" [] (by simp) (by decide)
  have h3' := h3
  exact ⟨h1, h2, h3', h4⟩

/-- C9: the fuel-needed computation never divides by zero: when the
configured efficiency is positive, fuel needed is distance in kilometers
divided by efficiency; otherwise fuel needed is 0 and the estimated cost
(fuel needed times fuel price) is 0 as well. -/
theorem claim_C9_fuel_division (r : Route) (eff price : ℚ) :
    (eff > 0 → fuel_needed (distance_km r) eff = distance_km r / eff) ∧
    (¬ eff > 0 → fuel_needed (distance_km r) eff = 0 ∧
      estimated_cost (distance_km r) eff price = 0) := by
  constructor
  · intro h
    rw [fuel_needed, if_pos h]
  · intro h
    refine ⟨by rw [fuel_needed, if_neg h], ?_⟩
    rw [estimated_cost, fuel_needed, if_neg h, zero_mul]

theorem claim_C9_fuel_division_witness :
    fuel_needed (distance_km routeA) 15 = distance_km routeA / 15 ∧
    fuel_needed (distance_km routeA) 0 = 0 ∧
    estimated_cost (distance_km routeA) 0 175 = 0 := by
  obtain ⟨h2, h3⟩ := (claim_C9_fuel_division routeA 0 175).2 (by norm_num)
  exact ⟨(claim_C9_fuel_division routeA 15 175).1 (by norm_num), h2, h3⟩

theorem truthyOpt_iff (a : Option ℚ) :
    truthyOpt a = true ↔ (a ≠ none ∧ a ≠ some 0) := by
  cases a with
  | none => simp [truthyOpt]
  | some x => simp [truthyOpt]

theorem stationMarker_eq_claim (s : Station) :
    stationMarker s = if decide (drawCond s) = true then some (claimMarker s)
      else none := by
  by_cases h : drawCond s
  · have hb : (truthyOpt (resolvedLat s) && truthyOpt (resolvedLon s)) = true := by
      rw [Bool.and_eq_true, truthyOpt_iff, truthyOpt_iff]
      exact h
    rw [stationMarker, if_pos hb, if_pos (decide_eq_true h)]
    rfl
  · have hb : (truthyOpt (resolvedLat s) && truthyOpt (resolvedLon s)) = false := by
      cases hv : (truthyOpt (resolvedLat s) && truthyOpt (resolvedLon s)) with
      | false => rfl
      | true =>
        exfalso
        apply h
        have := Bool.and_eq_true _ _ |>.mp hv
        exact ⟨(truthyOpt_iff _).mp this.1, (truthyOpt_iff _).mp this.2⟩
    rw [stationMarker, if_neg (by simp [hb]), if_neg (by simp [h])]

theorem filterMap_markers_eq (l : List Station) :
    l.filterMap stationMarker =
      (l.filter (fun s => decide (drawCond s))).map claimMarker := by
  induction l with
  | nil => rfl
  | cons a t ih =>
    by_cases hp : drawCond a
    · have hsome : stationMarker a = some (claimMarker a) := by
        rw [stationMarker_eq_claim, if_pos (decide_eq_true hp)]
      rw [List.filterMap_cons_some hsome, List.filter_cons,
        if_pos (decide_eq_true hp), List.map_cons, ih]
    · have hnone : stationMarker a = none := by
        rw [stationMarker_eq_claim, if_neg (by simp [hp])]
      rw [List.filterMap_cons_none hnone, List.filter_cons,
        if_neg (by simp [hp]), ih]

/-- C10: the map renderer draws a fuel-station marker exactly for those
stations whose resolved latitude and longitude (element `lat`/`lon`, falling
back to `center.lat`/`center.lon` when absent or zero) are both present and
nonzero, labelled with `tags.name` or the fallback "Fuel Station"; a station
lying exactly on the equator (latitude 0, no center) is skipped even though
its position is resolvable. -/
theorem claim_C10_fuel_markers (stations : List Station) :
    fuelMarkers stations =
      (stations.filter (fun s => decide (drawCond s))).map claimMarker ∧
    fuelMarkers [equatorStation] = [] ∧
    fuelMarkers [unnamedStation] =
      [{ lat := 1, lon := 2, popup := "Fuel Station" }] := by
  exact ⟨filterMap_markers_eq stations, by decide, by decide⟩

end CarNav
